import Mathlib

/-!
Shallow embedding of the petscXdmfGenerator core pipeline:
the specification extractor (`xdmfSpecification.cpp`, provided as an unnamed
source file) and the XML builder (`src/xdmfBuilder.cpp`).

Machine integers (`unsigned long long`, `std::size_t`) are modelled as `Nat`;
the `int`-typed HDF attributes (`Nc`, `timestepping`) as `Int`; `double` time
values as `Rat` (only their sign and structural identity matter to the
claims).  Fallible container accesses (`HdfObject::Get` on a missing child,
missing required attributes, `throw std::runtime_error`) are modelled with
`Except String` / `Option`.  `std::vector::operator[]` out of range is
undefined behaviour in the source; the model totalises it with `List.getD`
(default `0`), and no claim is decided at such an input.
-/

/-- FieldType enum from the specification header (NONE, SCALAR, VECTOR, TENSOR, MATRIX). -/
inductive FieldType where
  | NONE
  | SCALAR
  | VECTOR
  | TENSOR
  | MATRIX
deriving DecidableEq, Repr

/-- FieldLocation enum (NODE, CELL). -/
inductive FieldLocation where
  | NODE
  | CELL
deriving DecidableEq, Repr

/-- Location of a binary array: `{path, file}`. -/
structure DataLocation where
  path : String := ""
  file : String := ""
deriving DecidableEq, Repr

/-- FieldDescription from the specification header.  The default member values
(componentOffset 0, componentStride 1, componentDimension 0, fieldType NONE,
hasTimeDimension false) are modelled from the spec (section 3) and from the
explicit designated initializer in `GenerateFieldsFromPetsc`, since the header
itself is not among the provided sources. -/
structure FieldDescription where
  name : String := ""
  location : DataLocation := {}
  shape : List Nat := []
  timeOffset : Nat := 0
  componentOffset : Nat := 0
  componentStride : Nat := 1
  componentDimension : Nat := 0
  fieldLocation : FieldLocation := FieldLocation.NODE
  fieldType : FieldType := FieldType.NONE
  hasTimeDimension : Bool := false
deriving DecidableEq, Repr

/-- Modelled from the spec: `GetDimension()` is the logical vector width,
identical to `componentDimension` (spec section 3); the accessor lives in the
missing header. -/
def FieldDescription.GetDimension (f : FieldDescription) : Nat :=
  f.componentDimension

/-- Modelled from the spec: `GetDof()` is the number of discrete entities the
field is defined over, derived from `shape` (spec section 3); with a time
dimension the entity axis is `shape[1]`, otherwise `shape[0]` (spec section 8
property: for `hasTimeDimension == false`, `GetDof() * GetDimension()` is the
product of the raw shape without the synthesized trailing 1). -/
def FieldDescription.GetDof (f : FieldDescription) : Nat :=
  if f.hasTimeDimension then f.shape.getD 1 0 else f.shape.getD 0 0

/-- TopologyDescription: location of the connectivity array, element count,
corners per element, and spatial rank.  Default `number = 0` encodes an absent
(hybrid) topology, per the spec (section 3). -/
structure TopologyDescription where
  location : DataLocation := {}
  number : Nat := 0
  numberCorners : Nat := 0
  dimension : Nat := 0
deriving DecidableEq, Repr

/-- GridDescription: one mesh/particle snapshot at one time value. -/
structure GridDescription where
  time : Rat := -1
  geometry : FieldDescription := {}
  topology : TopologyDescription := {}
  hybridTopology : TopologyDescription := {}
  fields : List FieldDescription := []
deriving DecidableEq, Repr

/-- GridCollectionDescription: a named, time-indexed map of grid lists.  The
`std::map<std::size_t, std::vector<GridDescription>>` is modelled as an
association list sorted by key with unique keys (the construction below only
uses sorted-insert operations), matching ordered map iteration. -/
structure GridCollectionDescription where
  name : String := ""
  grids : List (Nat × List GridDescription) := []
deriving DecidableEq, Repr

/-- Specification: root output of the extractor, sole input of the builder. -/
structure Specification where
  gridsCollections : List GridCollectionDescription := []
deriving DecidableEq, Repr

/-- Lookup in the ordered-map model (`std::map::find`). -/
def alistFind (m : List (Nat × List GridDescription)) (k : Nat) :
    Option (List GridDescription) :=
  (m.find? (fun p => p.1 == k)).map (fun p => p.2)

/-- Sorted insertion of a fresh empty entry (`std::map::operator[]` on an
absent key default-constructs the mapped vector). -/
def alistInsertEmpty : List (Nat × List GridDescription) → Nat →
    List (Nat × List GridDescription)
  | [], k => [(k, [])]
  | (q, v) :: rest, k =>
    if k < q then (k, []) :: (q, v) :: rest
    else (q, v) :: alistInsertEmpty rest k

/-- `m[k]` with `std::map::operator[]` semantics: return the mapped vector and
the (possibly extended) map. -/
def alistGetOrInsert (m : List (Nat × List GridDescription)) (k : Nat) :
    List GridDescription × List (Nat × List GridDescription) :=
  match alistFind m k with
  | some v => (v, m)
  | none => ([], alistInsertEmpty m k)

/-- `m[k].push_back(g)`: append to the entry at `k`, creating it if absent. -/
def alistAppendAt : List (Nat × List GridDescription) → Nat → GridDescription →
    List (Nat × List GridDescription)
  | [], k, g => [(k, [g])]
  | (q, v) :: rest, k, g =>
    if k = q then (q, v ++ [g]) :: rest
    else if k < q then (k, [g]) :: (q, v) :: rest
    else (q, v) :: alistAppendAt rest k g

/-- Sequence of `m[k].push_back(g)` operations. -/
def appendGridsAt (m : List (Nat × List GridDescription))
    (pairs : List (Nat × GridDescription)) : List (Nat × List GridDescription) :=
  pairs.foldl (fun acc p => alistAppendAt acc p.1 p.2) m

/-- Model of the external `HdfObject` collaborator: node identity, array
shape, typed attributes, raw data (used only for the "time" array) and child
nodes. -/
inductive HNode where
  | mk (name : String) (path : String) (shape : List Nat)
       (intAttrs : List (String × Int)) (strAttrs : List (String × String))
       (raw : List Rat) (children : List HNode)

/-- Node name (`HdfObject::Name`). -/
def HNode.name : HNode → String
  | .mk n _ _ _ _ _ _ => n

/-- Node path (`HdfObject::Path`). -/
def HNode.path : HNode → String
  | .mk _ p _ _ _ _ _ => p

/-- Array shape (`HdfObject::Shape`). -/
def HNode.shape : HNode → List Nat
  | .mk _ _ s _ _ _ _ => s

/-- Integer attributes (`HdfObject::Attribute<int>` / `<unsigned long long>`). -/
def HNode.intAttrs : HNode → List (String × Int)
  | .mk _ _ _ a _ _ _ => a

/-- String attributes (`HdfObject::AttributeString`). -/
def HNode.strAttrs : HNode → List (String × String)
  | .mk _ _ _ _ a _ _ => a

/-- Raw double data (`HdfObject::RawData<double>`). -/
def HNode.raw : HNode → List Rat
  | .mk _ _ _ _ _ r _ => r

/-- Child nodes (`HdfObject::Items`). -/
def HNode.children : HNode → List HNode
  | .mk _ _ _ _ _ _ c => c

/-- Child lookup (`HdfObject::Get`, guarded by `Contains`). -/
def HNode.getChild (h : HNode) (n : String) : Option HNode :=
  h.children.find? (fun c => c.name == n)

/-- Presence test (`HdfObject::Contains`). -/
def HNode.contains (h : HNode) (n : String) : Bool :=
  (h.getChild n).isSome

/-- Typed integer attribute lookup; `HasAttribute` is `Option.isSome`. -/
def HNode.intAttr (h : HNode) (n : String) : Option Int :=
  (h.intAttrs.find? (fun p => p.1 == n)).map (fun p => p.2)

/-- String attribute lookup. -/
def HNode.strAttr (h : HNode) (n : String) : Option String :=
  (h.strAttrs.find? (fun p => p.1 == n)).map (fun p => p.2)

/-- Required child access: `Get` on a missing child is an error from the
collaborator (spec section 6). -/
def getChildE (h : HNode) (n : String) : Except String HNode :=
  match h.getChild n with
  | some c => Except.ok c
  | none => Except.error ("child not found: " ++ n)

/-- Table `petscTypeLookUpFromFieldType` from the extractor source. -/
def vftLookup (s : String) : Option FieldType :=
  if s = "scalar" then some FieldType.SCALAR
  else if s = "vector" then some FieldType.VECTOR
  else if s = "tensor" then some FieldType.TENSOR
  else if s = "matrix" then some FieldType.MATRIX
  else none

/-- Table `petscTypeLookUpFromNC` from the extractor source. -/
def ncLookup (n : Int) : Option FieldType :=
  if n = 1 then some FieldType.SCALAR
  else if n = 2 then some FieldType.VECTOR
  else if n = 3 then some FieldType.VECTOR
  else none

/-- `hasTimeDimension` initializer: the node has a "timestepping" attribute
whose value is positive. -/
def hasTimeDim (h : HNode) : Bool :=
  match h.intAttr "timestepping" with
  | some v => decide (v > 0)
  | none => false

/-- Type determination步 of `GenerateFieldsFromPetsc` (lines 26-54 of the
extractor): the `vector_field_type` branch (with the degenerate-vector
downgrade), the `Nc` branch (with the packed-vector separation flag), or a
fatal error when neither attribute exists.  Returns (fieldType,
separateIntoComponents). -/
def determineType (h : HNode) (loc : FieldLocation) : Except String (FieldType × Bool) :=
  match h.strAttr "vector_field_type" with
  | some vft =>
    match vftLookup vft with
    | some ty =>
      if (ty = FieldType.VECTOR ∧ h.shape.length < 3 ∧ loc = FieldLocation.CELL ∧
            hasTimeDim h = true) ∨
         (ty = FieldType.VECTOR ∧ h.shape.length < 2 ∧ loc = FieldLocation.CELL ∧
            hasTimeDim h = false) then
        Except.ok (FieldType.SCALAR, false)
      else
        Except.ok (ty, false)
    | none => Except.ok (FieldType.NONE, false)
  | none =>
    match h.intAttr "Nc" with
    | some nc =>
      match ncLookup nc with
      | some ty => Except.ok (ty, false)
      | none =>
        if nc ≠ 0 then Except.ok (FieldType.VECTOR, true)
        else Except.ok (FieldType.NONE, false)
    | none => Except.error ("Cannot determine field type for " ++ h.name)

/-- Scalar shape adjustment (lines 56-64): scalars of rank < 3 get a trailing
1 appended to the shape; a scalar of rank ≥ 3 is a packed multi-component
object and is separated. -/
def scalarAdjust (ty : FieldType) (shape : List Nat) (sep : Bool) :
    List Nat × Bool :=
  if ty = FieldType.SCALAR then
    if shape.length < 3 then (shape ++ [1], sep) else (shape, true)
  else (shape, sep)

/-- Component dimension from a shape (line 67): `shape[2]` if rank > 2 else
`shape[1]`. -/
def componentDimOf (shape : List Nat) : Nat :=
  if shape.length > 2 then shape.getD 2 0 else shape.getD 1 0

/-- Name of a split component: `name + "_" + componentName{c}` when that
attribute exists on the node, else `name + c` (lines 73-79). -/
def componentFieldName (h : HNode) (c : Nat) : String :=
  match h.strAttr ("componentName" ++ toString c) with
  | some cn => h.name ++ "_" ++ cn
  | none => h.name ++ toString c

/-- The per-component FieldDescription pushed by the split loop
(lines 82-93). -/
def componentField (h : HNode) (loc : FieldLocation) (file : String)
    (timeOffset : Nat) (shape : List Nat) (d : Nat) (c : Nat) : FieldDescription :=
  { name := componentFieldName h c
    location := { path := h.path, file := file }
    shape := shape
    timeOffset := timeOffset
    componentOffset := c
    componentStride := d
    componentDimension := 1
    fieldLocation := loc
    fieldType := FieldType.SCALAR
    hasTimeDimension := hasTimeDim h }

/-- Processing of a single raw field node by `GenerateFieldsFromPetsc`: type
determination, scalar shape adjustment, component-dimension computation, then
emission (drop NONE fields, split packed fields into `GetDimension()` scalar
components, or emit the single description). -/
def processField (h : HNode) (loc : FieldLocation) (file : String)
    (timeOffset : Nat) : Except String (List FieldDescription) :=
  match determineType h loc with
  | Except.error e => Except.error e
  | Except.ok (ty, sep0) =>
    let pr := scalarAdjust ty h.shape sep0
    let d := componentDimOf pr.1
    if ty = FieldType.NONE then Except.ok []
    else if pr.2 then
      Except.ok ((List.range d).map (componentField h loc file timeOffset pr.1 d))
    else
      Except.ok [{ name := h.name
                   location := { path := h.path, file := file }
                   shape := pr.1
                   timeOffset := timeOffset
                   componentOffset := 0
                   componentStride := 1
                   componentDimension := d
                   fieldLocation := loc
                   fieldType := ty
                   hasTimeDimension := hasTimeDim h }]

/-- `XdmfSpecification::GenerateFieldsFromPetsc`: fold over the raw field
nodes, appending each node's emitted descriptions to the accumulator (the
in/out `fields` vector). -/
def generateFieldsFromPetsc (fields : List FieldDescription)
    (hdfFields : List HNode) (loc : FieldLocation) (file : String)
    (timeOffset : Nat) : Except String (List FieldDescription) :=
  match hdfFields with
  | [] => Except.ok fields
  | h :: rest =>
    match processField h loc file timeOffset with
    | Except.error e => Except.error e
    | Except.ok fs => generateFieldsFromPetsc (fields ++ fs) rest loc file timeOffset

/-- Final value of the `separateIntoComponents` flag for a node, exactly as
computed by the source (false when type determination fails). -/
def splitsField (h : HNode) (loc : FieldLocation) : Bool :=
  match determineType h loc with
  | Except.ok (ty, sep0) => (scalarAdjust ty h.shape sep0).2
  | Except.error _ => false

/-- Modelled from the spec: `GetTopologyPostfix` lives in the missing header;
topology children are named with an index-based suffix, unsuffixed for index
0 and "_i" for i ≥ 1 (spec sections 4.1 and 9). -/
def topologySuffix (i : Nat) : String :=
  if i = 0 then "" else "_" ++ toString i

/-- `XdmfSpecification::FindPetscHdfChild`: a "viz" subgroup is checked first
and takes precedence over a same-named top-level child. -/
def findPetscHdfChild (root : HNode) (n : String) : Option HNode :=
  match root.getChild "viz" with
  | some viz => if viz.contains n then viz.getChild n else root.getChild n
  | none => root.getChild n

/-- Upper bound used to totalise the `while (auto topologyObject = ...)` loop:
each found index corresponds to a distinct child name of the root or its
"viz" subgroup, so the loop visits fewer indices than this bound. -/
def topologyBound (root : HNode) : Nat :=
  root.children.length +
    (match root.getChild "viz" with
     | some viz => viz.children.length
     | none => 0) + 1

/-- Indices and objects visited by the topology loop: the maximal prefix
0, 1, 2, ... of indices whose `topology{suffix}` child resolves. -/
def topologyObjects (root : HNode) : List (Nat × HNode) :=
  (((List.range (topologyBound root)).map
      (fun i => (i, findPetscHdfChild root ("topology" ++ topologySuffix i)))).takeWhile
    (fun p => p.2.isSome)).filterMap (fun p => p.2.map (fun o => (p.1, o)))

/-- Time values of a root: the raw data of its "time" child, else the single
sentinel value -1. -/
def timeArray (root : HNode) : List Rat :=
  match root.getChild "time" with
  | some t => t.raw
  | none => [-1]

/-- Geometry FieldDescription assignment shared by the extraction paths:
name, path and shape of the vertices (or coordinates) node, fieldLocation
NODE, fieldType VECTOR, componentDimension `shape[2]` if rank > 2 else
`shape.back()`; remaining members keep their defaults. -/
def geometryField (file : String) (vertices : HNode) : FieldDescription :=
  { name := vertices.name
    location := { path := vertices.path, file := file }
    shape := vertices.shape
    fieldLocation := FieldLocation.NODE
    fieldType := FieldType.VECTOR
    componentDimension :=
      if vertices.shape.length > 2 then vertices.shape.getD 2 0
      else vertices.shape.getLastD 0 }

/-- One mesh GridDescription, as assembled by both `FromPetscHdf` overloads:
geometry from `geometry/vertices`, primary topology from
`topology{suffix}/cells` (element count `shape[0]`, corners `shape[1]`, rank
from the required "cell_dim" attribute), the optional hybrid topology, and
vertex/cell fields.  NOTE the hybrid block mirrors the source exactly: when a
"hybrid_topology" group is found, the source reads
`topologyObject->Get("hcells")` — the `topology{suffix}` group, not the
"hybrid_topology" group — and leaves `dimension` at its default.
`fieldsSuffix` is `topologySuffix i` in the single-root overload and "" in
the consumer overload; `timeOffset` is the time index in the single-root
overload and 0 in the consumer overload. -/
def buildMeshGrid (root geomObj topoObj : HNode) (file : String) (t : Rat)
    (fieldsSuffix : String) (timeOffset : Nat) : Except String GridDescription := do
  let vertices ← getChildE geomObj "vertices"
  let cells ← getChildE topoObj "cells"
  let dim ← match cells.intAttr "cell_dim" with
    | some v => Except.ok v.toNat
    | none => Except.error ("attribute not found: cell_dim")
  let hybrid ← match findPetscHdfChild root "hybrid_topology" with
    | some _ => do
        let hcells ← getChildE topoObj "hcells"
        Except.ok ({ location := { path := hcells.path, file := file }
                     number := hcells.shape.getD 0 0
                     numberCorners := hcells.shape.getD 1 0 } : TopologyDescription)
    | none => Except.ok ({} : TopologyDescription)
  let f1 ← match root.getChild ("vertex_fields" ++ fieldsSuffix) with
    | some o => generateFieldsFromPetsc [] o.children FieldLocation.NODE file timeOffset
    | none => Except.ok []
  let f2 ← match root.getChild ("cell_fields" ++ fieldsSuffix) with
    | some o => generateFieldsFromPetsc f1 o.children FieldLocation.CELL file timeOffset
    | none => Except.ok f1
  Except.ok { time := t
              geometry := geometryField file vertices
              topology := { location := { path := cells.path, file := file }
                            number := cells.shape.getD 0 0
                            numberCorners := cells.shape.getD 1 0
                            dimension := dim }
              hybridTopology := hybrid
              fields := f2 }

/-- One particle GridDescription: fields from "particle_fields", geometry
from "particles/coordinates" or promoted from the field literally named
"DMSwarmPIC_coor" (which is then erased from the field list; fatal error when
neither exists), and the synthesized point-cloud topology.  `timeOffset` is
the time index in the single-root overload and 0 in the consumer overload. -/
def buildParticleGrid (root : HNode) (file : String) (t : Rat)
    (timeOffset : Nat) : Except String GridDescription := do
  let fields0 ← match root.getChild "particle_fields" with
    | some pf => generateFieldsFromPetsc [] pf.children FieldLocation.NODE file timeOffset
    | none => Except.ok []
  let gp ← match root.getChild "particles" with
    | some particles => do
        let coords ← getChildE particles "coordinates"
        Except.ok (geometryField file coords, fields0)
    | none =>
      match fields0.find? (fun f => f.name == "DMSwarmPIC_coor") with
      | some f => Except.ok (f, fields0.eraseP (fun f2 => f2.name == "DMSwarmPIC_coor"))
      | none => Except.error ("Cannot determine geometry for particles")
  Except.ok { time := t
              geometry := gp.1
              topology := { location := { path := "", file := file }
                            number := gp.1.GetDof
                            numberCorners := 0
                            dimension := gp.1.GetDimension }
              fields := gp.2 }

/-- Mesh `(timeIndex, grid)` pairs of the single-root overload: per topology
index, one grid for every entry of the root's "time" array, keyed (and
time-offset) by the position in that array. -/
def meshGridPairsSingle (root geomObj : HNode) (file : String) :
    Except String (List (Nat × GridDescription)) := do
  let ls ← (topologyObjects root).mapM (fun p =>
    (timeArray root).enum.mapM (fun q =>
      Except.map (fun g => (q.1, g))
        (buildMeshGrid root geomObj p.2 file q.2 (topologySuffix p.1) q.1)))
  Except.ok ls.flatten

/-- Particle `(timeIndex, grid)` pairs of the single-root overload. -/
def particleGridPairsSingle (root : HNode) (file : String) :
    Except String (List (Nat × GridDescription)) :=
  (timeArray root).enum.mapM (fun q =>
    Except.map (fun g => (q.1, g)) (buildParticleGrid root file q.2 q.1))

/-- Mesh part of the single-root overload: the singleton mesh collection
(default name) when a "geometry" child resolves, else no collection. -/
def meshPartSingle (root : HNode) :
    Except String (List GridCollectionDescription) :=
  match findPetscHdfChild root "geometry" with
  | some geomObj =>
    match meshGridPairsSingle root geomObj root.name with
    | Except.error e => Except.error e
    | Except.ok pairs =>
      Except.ok [{ name := "", grids := appendGridsAt [] pairs }]
  | none => Except.ok []

/-- `XdmfSpecification::FromPetscHdf(rootObject)` (single-root overload): a
mesh grid collection when a "geometry" child resolves, then a particle grid
collection named "particle_domain" when "particles" or "particle_fields"
exists. -/
def fromPetscHdf (root : HNode) : Except String Specification :=
  match meshPartSingle root with
  | Except.error e => Except.error e
  | Except.ok meshColls =>
    match root.contains "particles" || root.contains "particle_fields" with
    | true =>
      match particleGridPairsSingle root root.name with
      | Except.error e => Except.error e
      | Except.ok pairs =>
        Except.ok ⟨meshColls ++
          [{ name := "particle_domain", grids := appendGridsAt [] pairs }]⟩
    | false => Except.ok ⟨meshColls⟩

/-- Mesh grids of one consumed root in the consumer overload: one grid per
topology index, all using only the first time value, unsuffixed field groups
and timeOffset 0. -/
def meshGridsMulti (root geomObj : HNode) : Except String (List GridDescription) :=
  (topologyObjects root).mapM (fun p =>
    buildMeshGrid root geomObj p.2 root.name ((timeArray root).getD 0 (-1)) "" 0)

/-- Particle grids of one consumed root in the consumer overload: one grid
per time value, timeOffset 0. -/
def particleGridsMulti (root : HNode) : Except String (List GridDescription) :=
  (timeArray root).mapM (fun tv => buildParticleGrid root root.name tv 0)

/-- Replace the last element of a list (`container.back()` mutation). -/
def modifyLast {α : Type} (f : α → α) : List α → List α
  | [] => []
  | [x] => [f x]
  | x :: y :: rest => x :: modifyLast f (y :: rest)

/-- Mesh block of the consumer loop body: when a "geometry" child resolves,
create a collection only if `gridsCollections` is empty, then append this
root's mesh grids into `gridsCollections.back()` under the shared time-index
counter `n`. -/
def meshStage (s : Specification) (n : Nat) (root : HNode) :
    Except String Specification :=
  match findPetscHdfChild root "geometry" with
  | some geomObj =>
    match meshGridsMulti root geomObj with
    | Except.error e => Except.error e
    | Except.ok gs =>
      let colls := if s.gridsCollections.isEmpty then [{}] else s.gridsCollections
      Except.ok ⟨modifyLast
        (fun c => { c with
          grids := appendGridsAt c.grids (gs.map (fun g => (n, g))) }) colls⟩
  | none => Except.ok s

/-- Particle block of the consumer loop body: when "particles" or
"particle_fields" exists, create a collection only if `gridsCollections` is
empty, rename `gridsCollections.back()` to "particle_domain" and append this
root's particle grids under the counter `n`. -/
def particleStage (s : Specification) (n : Nat) (root : HNode) :
    Except String Specification :=
  match root.contains "particles" || root.contains "particle_fields" with
  | true =>
    match particleGridsMulti root with
    | Except.error e => Except.error e
    | Except.ok gs =>
      let colls := if s.gridsCollections.isEmpty then [{}] else s.gridsCollections
      Except.ok ⟨modifyLast
        (fun c => { c with
          name := "particle_domain"
          grids := appendGridsAt c.grids (gs.map (fun g => (n, g))) }) colls⟩
  | false => Except.ok s

/-- Processing of one consumed root by the consumer overload, mirroring the
source: the mesh block, then the particle block (so a root with both domains
reuses one collection, which the particle stage renames "particle_domain"). -/
def consumeRoot (s : Specification) (n : Nat) (root : HNode) :
    Except String Specification :=
  match meshStage s n root with
  | Except.error e => Except.error e
  | Except.ok s1 => particleStage s1 n root

/-- The consumer loop: one root per pull, incrementing the time-index counter
after every consumed root. -/
def consumeAll : List HNode → Specification → Nat → Except String Specification
  | [], s, _ => Except.ok s
  | r :: rs, s, n =>
    match consumeRoot s n r with
    | Except.error e => Except.error e
    | Except.ok s1 => consumeAll rs s1 (n + 1)

/-- `XdmfSpecification::FromPetscHdf(consumer)` (multi-source overload); the
caller-supplied producer is modelled by the finite list of roots it yields
before signalling completion. -/
def fromPetscHdfConsumer (roots : List HNode) : Except String Specification :=
  consumeAll roots ⟨[]⟩ 0

/-- Every time-index key of a collection maps to a non-empty grid list. -/
def collOk (c : GridCollectionDescription) : Prop :=
  ∀ p ∈ c.grids, p.2 ≠ []

/-- Extractor-output invariant claimed by C10. -/
def specOk (s : Specification) : Prop :=
  ∀ c ∈ s.gridsCollections, collOk c

/-- XML element model: tag, attributes (in assignment order), text content
and child elements (in creation order).  The preamble string of the document
root is stored as its content. -/
inductive XmlElement where
  | mk (tag : String) (attrs : List (String × String)) (content : String)
       (children : List XmlElement)

/-- Element tag. -/
def XmlElement.tag : XmlElement → String
  | .mk t _ _ _ => t

/-- Element attributes. -/
def XmlElement.attrs : XmlElement → List (String × String)
  | .mk _ a _ _ => a

/-- Element text content. -/
def XmlElement.content : XmlElement → String
  | .mk _ _ c _ => c

/-- Child elements. -/
def XmlElement.children : XmlElement → List XmlElement
  | .mk _ _ _ ch => ch

/-- Attribute lookup on an element. -/
def xmlAttr (e : XmlElement) (k : String) : Option String :=
  (e.attrs.find? (fun p => p.1 == k)).map (fun p => p.2)

/-- The `cellMap` table of the builder source: (dimension, corners) to cell
type.  `none` encodes a pair absent from the table. -/
def cellTable (dim corners : Nat) : Option String :=
  if dim = 1 then
    if corners = 0 then some "Polyvertex"
    else if corners = 1 then some "Polyvertex"
    else if corners = 2 then some "Polyline"
    else none
  else if dim = 2 then
    if corners = 0 then some "Polyvertex"
    else if corners = 2 then some "Polyline"
    else if corners = 3 then some "Triangle"
    else if corners = 4 then some "Quadrilateral"
    else none
  else if dim = 3 then
    if corners = 0 then some "Polyvertex"
    else if corners = 4 then some "Tetrahedron"
    else if corners = 6 then some "Wedge"
    else if corners = 8 then some "Hexahedron"
    else none
  else none

/-- The builder reads `cellMap[dimension][numberCorners]` with
`std::map::operator[]`, which default-constructs an empty string for a pair
absent from the table instead of failing. -/
def cellTypeOpIndex (dim corners : Nat) : String :=
  (cellTable dim corners).getD ""

/-- The `nodesPerCell` table: absent pair omits the NodesPerElement
attribute; a negative value means "use the element count". -/
def nodesPerCellTable (dim corners : Nat) : Option Int :=
  if dim = 1 then
    if corners = 0 then some (-1) else if corners = 2 then some 2 else none
  else if dim = 2 then
    if corners = 0 then some (-1) else if corners = 2 then some 2 else none
  else if dim = 3 then
    if corners = 0 then some (-1) else none
  else none

/-- The `typeMap` table read with `operator[]`: NONE is absent from the table
and default-constructs the empty string. -/
def typeString : FieldType → String
  | FieldType.SCALAR => "Scalar"
  | FieldType.VECTOR => "Vector"
  | FieldType.TENSOR => "Tensor6"
  | FieldType.MATRIX => "Matrix"
  | FieldType.NONE => ""

/-- The `locationMap` table. -/
def locationString : FieldLocation → String
  | FieldLocation.NODE => "Node"
  | FieldLocation.CELL => "Cell"

/-- `XdmfBuilder::Hdf5PathToName`: replace every slash with an underscore. -/
def hdf5PathToName (p : String) : String :=
  p.map (fun ch => if ch = '/' then '_' else ch)

/-- Modelled from the spec: the two-argument `Join` helper of the missing
builder header produces space-separated decimal values (as in the emitted
Dimensions strings). -/
def join2 (a b : Nat) : String :=
  toString a ++ " " ++ toString b

/-- Modelled from the spec: the three-argument `Join` helper. -/
def join3 (a b c : Nat) : String :=
  toString a ++ " " ++ toString b ++ " " ++ toString c

/-- Modelled from the spec: `JoinVector` over an integer shape. -/
def joinShape (shape : List Nat) : String :=
  String.intercalate (" ") (shape.map toString)

/-- Modelled from the spec: `JoinVector` over the double time values. -/
def joinTimes (ts : List Rat) : String :=
  String.intercalate (" ") (ts.map toString)

/-- `XdmfBuilder::WriteData`: a hyperslab reference (outer dimensions,
start/stride/count selection, then the full-array reference) when the field
has a time dimension, else a single direct array reference. -/
def writeData (f : FieldDescription) : XmlElement :=
  if f.hasTimeDimension then
    XmlElement.mk "DataItem"
      [("ItemType", "HyperSlab"),
       ("Dimensions", join3 1 f.GetDof f.GetDimension),
       ("Type", "HyperSlab")] ""
      [XmlElement.mk "DataItem"
         [("Dimensions", join2 3 3), ("Format", "XML")]
         (join3 f.timeOffset 0 f.componentOffset ++ " " ++
          join3 1 1 f.componentStride ++ " " ++
          join3 1 f.GetDof f.GetDimension) [],
       XmlElement.mk "DataItem"
         [("DataType", "Float"), ("Dimensions", joinShape f.shape),
          ("Format", "HDF"), ("Precision", "8")]
         (f.location.file ++ ":" ++ f.location.path) []]
  else
    XmlElement.mk "DataItem"
      [("Name", hdf5PathToName f.location.path), ("DataType", "Float"),
       ("Dimensions", joinShape f.shape), ("Format", "HDF"),
       ("Precision", "8")]
      (f.location.file ++ ":" ++ f.location.path) []

/-- `XdmfBuilder::WriteCells`: the connectivity DataItem. -/
def writeCells (t : TopologyDescription) : XmlElement :=
  XmlElement.mk "DataItem"
    [("Name", hdf5PathToName t.location.path), ("ItemType", "Uniform"),
     ("Format", "HDF"), ("Precision", "8"), ("NumberType", "Float"),
     ("Dimensions", toString t.number ++ " " ++ toString t.numberCorners)]
    (t.location.file ++ ":" ++ t.location.path) []

/-- `XdmfBuilder::WriteField`: an Attribute element typed by the
FieldType/FieldLocation label tables, containing the field's data
reference. -/
def writeField (f : FieldDescription) : XmlElement :=
  XmlElement.mk "Attribute"
    [("Name", f.name), ("Type", typeString f.fieldType),
     ("Center", locationString f.fieldLocation)] ""
    [writeData f]

/-- `XdmfBuilder::GenerateSpaceGrid`: a uniform grid with a Topology element
(cell type via `operator[]` on the cell table, optional NodesPerElement,
connectivity only when `numberCorners` is non-zero) and a Geometry element
("XYZ" when the geometry's component dimension exceeds 2, else "XY"). -/
def generateSpaceGrid (t : TopologyDescription) (geom : FieldDescription)
    (domainName : String) : XmlElement :=
  let topoAttrs :=
    [("TopologyType", cellTypeOpIndex t.dimension t.numberCorners)] ++
    (match nodesPerCellTable t.dimension t.numberCorners with
     | some v =>
       [("NodesPerElement", if v < 0 then toString t.number else toString v)]
     | none => []) ++
    (if t.numberCorners ≠ 0 then [("NumberOfElements", toString t.number)] else [])
  let topologyElem := XmlElement.mk "Topology" topoAttrs ""
    (if t.numberCorners ≠ 0 then [writeCells t] else [])
  let geometryElem := XmlElement.mk "Geometry"
    [("GeometryType", if geom.GetDimension > 2 then "XYZ" else "XY")] ""
    [writeData geom]
  XmlElement.mk "Grid" [("Name", domainName), ("GridType", "Uniform")] ""
    [topologyElem, geometryElem]

/-- A uniform grid together with its field attributes (the `WriteField` loop
appends each field as a further child of the space grid). -/
def spaceGridWithFields (domainName : String) (g : GridDescription) : XmlElement :=
  match generateSpaceGrid g.topology g.geometry domainName with
  | XmlElement.mk t a c ch => XmlElement.mk t a c (ch ++ g.fields.map writeField)

/-- `XdmfBuilder::GenerateSpatialGrid`: a collection grid; the
CollectionType attribute is omitted when the type string is empty (the
default argument of the missing header, used for the hybrid wrapper). -/
def spatialCollectionGrid (domainName collectionType : String)
    (children : List XmlElement) : XmlElement :=
  XmlElement.mk "Grid"
    ([("Name", domainName), ("GridType", "Collection")] ++
     (if collectionType = "" then [] else [("CollectionType", collectionType)]))
    "" children

/-- Elements emitted for one GridDescription: a hybrid wrapper containing the
hybrid-topology grid then the primary grid when `hybridTopology.number > 0`,
else the primary grid alone. -/
def gridElems (domainName : String) (g : GridDescription) : List XmlElement :=
  if g.hybridTopology.number > 0 then
    [spatialCollectionGrid domainName ""
      [generateSpaceGrid g.hybridTopology g.geometry domainName,
       spaceGridWithFields domainName g]]
  else [spaceGridWithFields domainName g]

/-- `XdmfBuilder::GenerateTimeGrid`: the temporal collection grid with its
Time/DataItem header; the per-index grids become its further children. -/
def timeCollectionGrid (ts : List Rat) (gridChildren : List XmlElement) :
    XmlElement :=
  XmlElement.mk "Grid"
    [("Name", "TimeSeries"), ("GridType", "Collection"),
     ("CollectionType", "Temporal")] ""
    (XmlElement.mk "Time" [("TimeType", "List")] ""
       [XmlElement.mk "DataItem"
          [("Format", "XML"), ("NumberType", "Float"),
           ("Dimensions", toString ts.length)] (joinTimes ts) []] :: gridChildren)

/-- Sorted insertion for `std::sort` over the collected keys. -/
def insertNat (x : Nat) : List Nat → List Nat
  | [] => [x]
  | y :: ys => if x ≤ y then x :: y :: ys else y :: insertNat x ys

/-- Insertion sort over the collected time-index keys. -/
def sortNat : List Nat → List Nat
  | [] => []
  | x :: xs => insertNat x (sortNat xs)

/-- The per-collection grid loop of `XdmfBuilder::Build`
(`for timeIndex = 0; timeIndex < timeVector.size(); timeIndex++`): NOTE it
iterates positional indices 0..n-1, not the sorted keys, and reads
`grids[timeIndex]` with `operator[]`, which inserts a default-constructed
empty entry when that index is not a key.  Returns the emitted elements and
the possibly-extended map. -/
def buildTimeLoop (domainName : String) :
    List Nat → List (Nat × List GridDescription) →
    List XmlElement × List (Nat × List GridDescription)
  | [], m => ([], m)
  | i :: rest, m =>
    let gm := alistGetOrInsert m i
    let inner := gm.1.flatMap (gridElems domainName)
    let es := if gm.1.length > 1 then
        [spatialCollectionGrid domainName "Spatial" inner]
      else inner
    let tailRes := buildTimeLoop domainName rest gm.2
    (es ++ tailRes.1, tailRes.2)

/-- Processing of one grid collection by `XdmfBuilder::Build`: collect and
sort the keys, compute `useTime` from the first sorted key's front grid,
build the time vector, run the positional grid loop, and wrap everything in a
temporal collection grid when `useTime` holds.  Reading `.front()` of an
empty vector is undefined in the source; the model supplies a default
GridDescription there. -/
def buildCollection (c : GridCollectionDescription) :
    List XmlElement × GridCollectionDescription :=
  let timeIndexes := sortNat (c.grids.map Prod.fst)
  let frontTime :=
    (((alistFind c.grids (timeIndexes.headD 0)).getD []).headD {}).time
  let useTime : Bool :=
    !(c.grids.isEmpty || timeIndexes.isEmpty || decide (frontTime < 0))
  let timeVector := timeIndexes.map
    (fun k => (((alistFind c.grids k).getD []).headD ({} : GridDescription)).time)
  let lp := buildTimeLoop c.name (List.range timeVector.length) c.grids
  (if useTime then [timeCollectionGrid timeVector lp.1] else lp.1,
   { c with grids := lp.2 })

/-- The fixed document preamble. -/
def xdmfPreamble : String :=
  "<?xml version=\"1.0\" ?>\n<!DOCTYPE Xdmf SYSTEM \"Xdmf.dtd\" []>"

/-- `XdmfBuilder::Build`: one document with a single domain; each collection
contributes either a temporal collection grid or its grids directly.  The
result pairs the document with the post-call state of the Specification
(whose grids maps the positional loop may have extended). -/
def build (s : Specification) : XmlElement × Specification :=
  let results := s.gridsCollections.map buildCollection
  let domain := XmlElement.mk "Domain" [("Name", "domain")] ""
    ((results.map Prod.fst).flatten)
  (XmlElement.mk "Xdmf" [] xdmfPreamble [domain],
   ⟨results.map Prod.snd⟩)

/-- Tag, GridType attribute and child tags of an element — enough structure
to recognise which grids were emitted under it. -/
def gridShapeOf (e : XmlElement) : String × Option String × List String :=
  (e.tag, xmlAttr e "GridType", e.children.map XmlElement.tag)

/-- TopologyType attribute of a uniform grid's Topology child. -/
def topologyTypeOf (e : XmlElement) : Option String :=
  match e.children.find? (fun c => c.tag == "Topology") with
  | some t => xmlAttr t "TopologyType"
  | none => none

/-- Total number of GridDescription values stored in a Specification. -/
def storedGridCount (s : Specification) : Nat :=
  (s.gridsCollections.map
    (fun c => (c.grids.map (fun p => p.2.length)).sum)).sum

/-- Concrete hexahedral topology (dimension 3, 8 corners: present in the cell
table). -/
def ex1Topo : TopologyDescription :=
  { location := { path := "/topology/cells", file := "m.h5" }
    number := 5, numberCorners := 8, dimension := 3 }

/-- Concrete geometry description for the C1 instances. -/
def ex1Geom : FieldDescription :=
  { name := "vertices"
    location := { path := "/geometry/vertices", file := "m.h5" }
    shape := [10, 3], componentDimension := 3, fieldType := FieldType.VECTOR }

/-- Concrete topology whose (dimension, corners) pair (2, 5) is absent from
the cell table. -/
def cex1Topo : TopologyDescription :=
  { location := { path := "/topology/cells", file := "m.h5" }
    number := 7, numberCorners := 5, dimension := 2 }

/-- Concrete geometry description for the C1 counterexample. -/
def cex1Geom : FieldDescription :=
  { name := "vertices"
    location := { path := "/geometry/vertices", file := "m.h5" }
    shape := [9, 2], componentDimension := 2, fieldType := FieldType.VECTOR }

/-- A mesh snapshot with non-negative time, stored under time-index key 1. -/
def gridC2 : GridDescription :=
  { time := 0
    geometry := { name := "vertices"
                  location := { path := "/geometry/vertices", file := "a.h5" }
                  shape := [3, 2], componentDimension := 2
                  fieldType := FieldType.VECTOR }
    topology := { location := { path := "/topology/cells", file := "a.h5" }
                  number := 2, numberCorners := 3, dimension := 2 }
    fields := [] }

/-- A Specification whose only collection has the single non-contiguous
time-index key 1. -/
def specC2 : Specification :=
  ⟨[{ name := "mesh", grids := [(1, [gridC2])] }]⟩

/-- A mesh snapshot for the C3 instances. -/
def gridC3 : GridDescription :=
  { time := 2
    geometry := { name := "vertices"
                  location := { path := "/geometry/vertices", file := "b.h5" }
                  shape := [4, 3], componentDimension := 3
                  fieldType := FieldType.VECTOR }
    topology := { location := { path := "/topology/cells", file := "b.h5" }
                  number := 3, numberCorners := 4, dimension := 2 }
    fields := [] }

/-- A Specification with the single non-contiguous key 1 (C3 counterexample). -/
def specC3 : Specification :=
  ⟨[{ name := "main", grids := [(1, [gridC3])] }]⟩

/-- A Specification whose collection keys are the contiguous range 0..0. -/
def specC3W : Specification :=
  ⟨[{ name := "w", grids := [(0, [gridC3])] }]⟩

/-- A root holding both a mesh domain and a particle domain (C4 failing
input). -/
def rootC4 : HNode :=
  HNode.mk "output.h5" "/" [] [] [] []
    [HNode.mk "geometry" "/geometry" [] [] [] []
       [HNode.mk "vertices" "/geometry/vertices" [10, 3] [] [] [] []],
     HNode.mk "topology" "/topology" [] [] [] []
       [HNode.mk "cells" "/topology/cells" [5, 4] [("cell_dim", 3)] [] [] []],
     HNode.mk "particles" "/particles" [] [] [] []
       [HNode.mk "coordinates" "/particles/coordinates" [7, 3] [] [] [] []]]

/-- A mesh root with a "hybrid_topology" group whose "hcells" child exists,
while the "topology" group has no "hcells" child (C5 failing input). -/
def rootC5 : HNode :=
  HNode.mk "mesh.h5" "/" [] [] [] []
    [HNode.mk "geometry" "/geometry" [] [] [] []
       [HNode.mk "vertices" "/geometry/vertices" [10, 3] [] [] [] []],
     HNode.mk "topology" "/topology" [] [] [] []
       [HNode.mk "cells" "/topology/cells" [5, 4] [("cell_dim", 3)] [] [] []],
     HNode.mk "hybrid_topology" "/hybrid_topology" [] [] [] []
       [HNode.mk "hcells" "/hybrid_topology/hcells" [2, 2] [] [] [] []]]

/-- A packed field node with Nc = 5 and a name attribute for component 0
(C7 witness input). -/
def nodeC7 : HNode :=
  HNode.mk "stress" "/cell_fields/stress" [7, 5] [("Nc", 5)]
    [("componentName0", "xx")] [] []

/-- A rank-1 cell field tagged "vector" with no time dimension (C8 witness
input). -/
def nodeC8 : HNode :=
  HNode.mk "velocity" "/cell_fields/velocity" [4] []
    [("vector_field_type", "vector")] [] []

/-- A particle field node with Nc = 2 (C9 witness input). -/
def nodeC9 : HNode :=
  HNode.mk "uv" "/particle_fields/uv" [6, 2] [("Nc", 2)] [] [] []

/-- A particle-only root whose geometry is promoted from DMSwarmPIC_coor
(C10 witness input). -/
def rootC10 : HNode :=
  HNode.mk "swarm.h5" "/" [] [] [] []
    [HNode.mk "particle_fields" "/particle_fields" [] [] [] []
       [HNode.mk "DMSwarmPIC_coor" "/particle_fields/DMSwarmPIC_coor" [5, 2]
          [("Nc", 2)] [] [] []]]

/-- C1: for a (dimension, numberCorners) pair present in the cell-type
table, the emitted Topology element's TopologyType equals the table's
string; for a pair absent from the table the build does not fail — the
`operator[]` read default-constructs and the emitted TopologyType is the
empty string (amended claim). -/
theorem claim_C1 :
    ∀ (t : TopologyDescription) (g : FieldDescription) (nm : String),
      (∀ s, cellTable t.dimension t.numberCorners = some s →
        topologyTypeOf (generateSpaceGrid t g nm) = some s) ∧
      (cellTable t.dimension t.numberCorners = none →
        topologyTypeOf (generateSpaceGrid t g nm) = some "") := by
  intro t g nm
  have hbase : topologyTypeOf (generateSpaceGrid t g nm) =
      some (cellTypeOpIndex t.dimension t.numberCorners) := rfl
  constructor
  · intro s hs
    rw [hbase]
    unfold cellTypeOpIndex
    rw [hs]
    rfl
  · intro hn
    rw [hbase]
    unfold cellTypeOpIndex
    rw [hn]
    rfl

/-- C1 witness: the pair (3, 8) is in the table and the emitted TopologyType
is "Hexahedron". -/
theorem claim_C1_witness :
    topologyTypeOf (generateSpaceGrid ex1Topo ex1Geom "domain") =
      some "Hexahedron" :=
  (claim_C1 ex1Topo ex1Geom "domain").1 "Hexahedron" rfl

/-- C1 counterexample: the pair (2, 5) is absent from the table, yet
GenerateSpaceGrid produces a grid element (TopologyType "") instead of
failing with a lookup error as the claim states. -/
theorem claim_C1_counterexample :
    cellTable 2 5 = none ∧
      topologyTypeOf (generateSpaceGrid cex1Topo cex1Geom "d") = some "" :=
  ⟨rfl, rfl⟩

/-- C2 (code bug): a collection whose only time-index key is 1 stores one
GridDescription, but Build emits no uniform grid for it — the entire
document is the domain holding one temporal collection grid whose only child
is its Time header, because the grid loop iterates positional indices
0..n-1 instead of the sorted keys and so never visits the stored grid under
key 1. -/
theorem claim_C2_bug :
    (build specC2).1.children.map
        (fun d => (d.tag, d.children.map gridShapeOf)) =
      [("Domain", [("Grid", some "Collection", ["Time"])])] ∧
    storedGridCount specC2 = 1 :=
  ⟨rfl, rfl⟩

/-- C4 (code bug): consuming a single root that contains both a mesh domain
and a particle domain yields one single collection, named "particle_domain",
whose key-0 entry holds the mesh grid (numberCorners 4) and the particle grid
(numberCorners 0) together — mesh and particle descriptions are accumulated
into the same GridCollectionDescription, contrary to the claim. -/
theorem claim_C4_bug :
    (fromPetscHdfConsumer [rootC4]).map (fun s =>
      (s.gridsCollections.length, (s.gridsCollections.headD {}).name,
       (s.gridsCollections.headD {}).grids.map (fun p =>
         (p.1, p.2.map (fun g => g.topology.numberCorners))))) =
    Except.ok (1, "particle_domain", [(0, [4, 0])]) := rfl

/-- C5 (code bug): on a root whose "hybrid_topology" group has an "hcells"
child while the "topology" group has none, extraction aborts with a
missing-child error, because the source resolves "hcells" from the
`topology{suffix}` object instead of the found "hybrid_topology" object. -/
theorem claim_C5_bug :
    fromPetscHdf rootC5 = Except.error ("child not found: hcells") := rfl

/-- C6: WriteData emits, for a field with a time dimension, a hyperslab
reference with outer dimensions (1, GetDof, GetDimension), a 3x3 selection
holding start (timeOffset, 0, componentOffset), stride (1, 1,
componentStride) and count (1, GetDof, GetDimension), followed by the
full-array reference with the raw shape and the "file:path" address; for a
field without a time dimension, a single direct reference with the raw shape
and the "file:path" address. -/
theorem claim_C6 :
    ∀ f : FieldDescription,
      writeData f =
        if f.hasTimeDimension then
          XmlElement.mk "DataItem"
            [("ItemType", "HyperSlab"),
             ("Dimensions", join3 1 f.GetDof f.GetDimension),
             ("Type", "HyperSlab")] ""
            [XmlElement.mk "DataItem"
               [("Dimensions", "3 3"), ("Format", "XML")]
               (join3 f.timeOffset 0 f.componentOffset ++ " " ++
                join3 1 1 f.componentStride ++ " " ++
                join3 1 f.GetDof f.GetDimension) [],
             XmlElement.mk "DataItem"
               [("DataType", "Float"), ("Dimensions", joinShape f.shape),
                ("Format", "HDF"), ("Precision", "8")]
               (f.location.file ++ ":" ++ f.location.path) []]
        else
          XmlElement.mk "DataItem"
            [("Name", hdf5PathToName f.location.path), ("DataType", "Float"),
             ("Dimensions", joinShape f.shape), ("Format", "HDF"),
             ("Precision", "8")]
            (f.location.file ++ ":" ++ f.location.path) [] := by
  intro f
  have h33 : join2 3 3 = "3 3" := rfl
  cases hf : f.hasTimeDimension <;> simp [writeData, hf, h33]

/-- A true `separateIntoComponents` flag out of the type-determination step
can only come from the packed-Nc branch, whose type is VECTOR. -/
theorem determineType_sep_vector (h : HNode) (loc : FieldLocation)
    (ty : FieldType) (hd : determineType h loc = Except.ok (ty, true)) :
    ty = FieldType.VECTOR := by
  unfold determineType at hd
  cases hv : h.strAttr "vector_field_type" with
  | some vft =>
    simp only [hv] at hd
    cases hl : vftLookup vft with
    | some ty2 =>
      simp only [hl] at hd
      split at hd <;> simp_all
    | none => simp only [hl] at hd; simp_all
  | none =>
    simp only [hv] at hd
    cases hn : h.intAttr "Nc" with
    | some nc =>
      simp only [hn] at hd
      cases hl : ncLookup nc with
      | some ty2 => simp only [hl] at hd; simp_all
      | none =>
        simp only [hl] at hd
        split at hd <;> simp_all
    | none => simp only [hn] at hd; simp_all

/-- C7: whenever GenerateFieldsFromPetsc splits a raw field node into
components, it emits exactly d SCALAR FieldDescriptions, one per component
index c in 0..d-1 where d is the original componentDimension, each with
componentOffset c, componentStride d, componentDimension 1, the
componentName-based or index-based name, and the node's raw shape,
timeOffset, location and time-dimension flag. -/
theorem claim_C7 :
    ∀ (h : HNode) (loc : FieldLocation) (file : String) (toff : Nat),
      splitsField h loc = true →
      processField h loc file toff =
        Except.ok ((List.range (componentDimOf h.shape)).map (fun c =>
          { name := componentFieldName h c
            location := { path := h.path, file := file }
            shape := h.shape
            timeOffset := toff
            componentOffset := c
            componentStride := componentDimOf h.shape
            componentDimension := 1
            fieldLocation := loc
            fieldType := FieldType.SCALAR
            hasTimeDimension := hasTimeDim h })) := by
  intro h loc file toff hs
  unfold splitsField at hs
  cases hd : determineType h loc with
  | error e => rw [hd] at hs; simp at hs
  | ok pr =>
    obtain ⟨ty, sep0⟩ := pr
    rw [hd] at hs
    unfold processField
    rw [hd]
    cases ty with
    | NONE =>
      have : sep0 = true := by
        simpa [scalarAdjust] using hs
      subst this
      exact absurd (determineType_sep_vector h loc _ hd) (by simp)
    | SCALAR =>
      by_cases hlen : h.shape.length < 3
      · have : sep0 = true := by
          simpa [scalarAdjust, hlen] using hs
        subst this
        exact absurd (determineType_sep_vector h loc _ hd) (by simp)
      · simp [scalarAdjust, hlen, componentField, componentFieldName]
    | VECTOR =>
      have : sep0 = true := by
        simpa [scalarAdjust] using hs
      subst this
      simp [scalarAdjust, componentField, componentFieldName]
    | TENSOR =>
      have : sep0 = true := by
        simpa [scalarAdjust] using hs
      subst this
      exact absurd (determineType_sep_vector h loc _ hd) (by simp)
    | MATRIX =>
      have : sep0 = true := by
        simpa [scalarAdjust] using hs
      subst this
      exact absurd (determineType_sep_vector h loc _ hd) (by simp)

/-- C7 witness: the packed node with Nc 5 and shape [7, 5] is split into 5
scalar components. -/
theorem claim_C7_witness :
    splitsField nodeC7 FieldLocation.NODE = true ∧
    processField nodeC7 FieldLocation.NODE "f.h5" 3 =
      Except.ok ((List.range (componentDimOf nodeC7.shape)).map (fun c =>
        { name := componentFieldName nodeC7 c
          location := { path := nodeC7.path, file := "f.h5" }
          shape := nodeC7.shape
          timeOffset := 3
          componentOffset := c
          componentStride := componentDimOf nodeC7.shape
          componentDimension := 1
          fieldLocation := FieldLocation.NODE
          fieldType := FieldType.SCALAR
          hasTimeDimension := hasTimeDim nodeC7 })) :=
  ⟨rfl, claim_C7 nodeC7 FieldLocation.NODE "f.h5" 3 rfl⟩

/-- C8: a field whose "vector_field_type" attribute resolves to VECTOR is
downgraded to SCALAR exactly when its location is CELL and its raw rank is
below 3 with a time dimension, or below 2 without one; in every other case
(including every NODE field) the determined type stays VECTOR. -/
theorem claim_C8 :
    ∀ (h : HNode) (loc : FieldLocation) (s : String),
      h.strAttr "vector_field_type" = some s →
      vftLookup s = some FieldType.VECTOR →
      ((determineType h loc = Except.ok (FieldType.SCALAR, false) ↔
         loc = FieldLocation.CELL ∧
           ((hasTimeDim h = true ∧ h.shape.length < 3) ∨
            (hasTimeDim h = false ∧ h.shape.length < 2))) ∧
       (¬(loc = FieldLocation.CELL ∧
           ((hasTimeDim h = true ∧ h.shape.length < 3) ∨
            (hasTimeDim h = false ∧ h.shape.length < 2))) →
         determineType h loc = Except.ok (FieldType.VECTOR, false))) := by
  intro h loc s ha hl
  have hC : ((True ∧ h.shape.length < 3 ∧
               loc = FieldLocation.CELL ∧ hasTimeDim h = true) ∨
             (True ∧ h.shape.length < 2 ∧
               loc = FieldLocation.CELL ∧ hasTimeDim h = false)) ↔
            (loc = FieldLocation.CELL ∧
              ((hasTimeDim h = true ∧ h.shape.length < 3) ∨
               (hasTimeDim h = false ∧ h.shape.length < 2))) := by
    constructor
    · rintro (⟨-, h1, h2, h3⟩ | ⟨-, h1, h2, h3⟩)
      · exact ⟨h2, Or.inl ⟨h3, h1⟩⟩
      · exact ⟨h2, Or.inr ⟨h3, h1⟩⟩
    · rintro ⟨h2, (⟨h3, h1⟩ | ⟨h3, h1⟩)⟩
      · exact Or.inl ⟨trivial, h1, h2, h3⟩
      · exact Or.inr ⟨trivial, h1, h2, h3⟩
  unfold determineType
  simp only [ha, hl]
  by_cases hc : loc = FieldLocation.CELL ∧
      ((hasTimeDim h = true ∧ h.shape.length < 3) ∨
       (hasTimeDim h = false ∧ h.shape.length < 2))
  · rw [if_pos (hC.mpr hc)]
    exact ⟨⟨fun _ => hc, fun _ => rfl⟩, fun hn => absurd hc hn⟩
  · rw [if_neg (fun hcc => hc (hC.mp hcc))]
    constructor
    · constructor
      · intro heq
        simp at heq
      · intro hcc
        exact absurd hcc hc
    · intro _
      rfl

/-- C8 witness: a rank-1 CELL field without a time dimension is downgraded
to SCALAR. -/
theorem claim_C8_witness :
    ((determineType nodeC8 FieldLocation.CELL =
        Except.ok (FieldType.SCALAR, false) ↔
       FieldLocation.CELL = FieldLocation.CELL ∧
         ((hasTimeDim nodeC8 = true ∧ nodeC8.shape.length < 3) ∨
          (hasTimeDim nodeC8 = false ∧ nodeC8.shape.length < 2))) ∧
     (¬(FieldLocation.CELL = FieldLocation.CELL ∧
         ((hasTimeDim nodeC8 = true ∧ nodeC8.shape.length < 3) ∨
          (hasTimeDim nodeC8 = false ∧ nodeC8.shape.length < 2))) →
       determineType nodeC8 FieldLocation.CELL =
         Except.ok (FieldType.VECTOR, false))) :=
  claim_C8 nodeC8 FieldLocation.CELL "vector" rfl rfl

/-- C9: for a node lacking "vector_field_type" but carrying an integer "Nc"
attribute, Nc 1 determines SCALAR; Nc 2 or 3 determines VECTOR emitted as a
single unsplit field; any other positive Nc determines VECTOR with the
separate-into-components flag set, so the field is emitted as one scalar per
component; Nc 0 determines NONE and the field is dropped from the output. -/
theorem claim_C9 :
    ∀ (h : HNode) (loc : FieldLocation) (file : String) (toff : Nat) (nc : Int),
      h.strAttr "vector_field_type" = none →
      h.intAttr "Nc" = some nc →
      ((nc = 1 → determineType h loc = Except.ok (FieldType.SCALAR, false)) ∧
       ((nc = 2 ∨ nc = 3) →
          determineType h loc = Except.ok (FieldType.VECTOR, false) ∧
          processField h loc file toff =
            Except.ok [{ name := h.name
                         location := { path := h.path, file := file }
                         shape := h.shape
                         timeOffset := toff
                         componentOffset := 0
                         componentStride := 1
                         componentDimension := componentDimOf h.shape
                         fieldLocation := loc
                         fieldType := FieldType.VECTOR
                         hasTimeDimension := hasTimeDim h }]) ∧
       ((0 < nc ∧ nc ≠ 1 ∧ nc ≠ 2 ∧ nc ≠ 3) →
          determineType h loc = Except.ok (FieldType.VECTOR, true) ∧
          processField h loc file toff =
            Except.ok ((List.range (componentDimOf h.shape)).map
              (componentField h loc file toff h.shape (componentDimOf h.shape)))) ∧
       (nc = 0 → processField h loc file toff = Except.ok [])) := by
  intro h loc file toff nc hv hn
  refine ⟨?_, ?_, ?_, ?_⟩
  · intro h1
    subst h1
    simp [determineType, hv, hn, ncLookup]
  · intro h23
    have hdet : determineType h loc = Except.ok (FieldType.VECTOR, false) := by
      rcases h23 with h2 | h3
      · subst h2
        simp [determineType, hv, hn, ncLookup]
      · subst h3
        simp [determineType, hv, hn, ncLookup]
    refine ⟨hdet, ?_⟩
    simp [processField, hdet, scalarAdjust]
  · rintro ⟨hpos, h1, h2, h3⟩
    have hlk : ncLookup nc = none := by
      unfold ncLookup
      simp [h1, h2, h3]
    have hnz : nc ≠ 0 := by omega
    have hdet : determineType h loc = Except.ok (FieldType.VECTOR, true) := by
      simp [determineType, hv, hn, hlk, hnz]
    refine ⟨hdet, ?_⟩
    simp [processField, hdet, scalarAdjust]
  · intro h0
    subst h0
    have hdet : determineType h loc = Except.ok (FieldType.NONE, false) := by
      simp [determineType, hv, hn, ncLookup]
    simp [processField, hdet]

/-- C9 witness: a node with Nc 2 and shape [6, 2] yields a single unsplit
VECTOR field. -/
theorem claim_C9_witness :
    ((2 = (1 : Int) → determineType nodeC9 FieldLocation.NODE =
        Except.ok (FieldType.SCALAR, false)) ∧
     (((2 : Int) = 2 ∨ (2 : Int) = 3) →
        determineType nodeC9 FieldLocation.NODE =
          Except.ok (FieldType.VECTOR, false) ∧
        processField nodeC9 FieldLocation.NODE "p.h5" 1 =
          Except.ok [{ name := nodeC9.name
                       location := { path := nodeC9.path, file := "p.h5" }
                       shape := nodeC9.shape
                       timeOffset := 1
                       componentOffset := 0
                       componentStride := 1
                       componentDimension := componentDimOf nodeC9.shape
                       fieldLocation := FieldLocation.NODE
                       fieldType := FieldType.VECTOR
                       hasTimeDimension := hasTimeDim nodeC9 }]) ∧
     ((0 < (2 : Int) ∧ (2 : Int) ≠ 1 ∧ (2 : Int) ≠ 2 ∧ (2 : Int) ≠ 3) →
        determineType nodeC9 FieldLocation.NODE =
          Except.ok (FieldType.VECTOR, true) ∧
        processField nodeC9 FieldLocation.NODE "p.h5" 1 =
          Except.ok ((List.range (componentDimOf nodeC9.shape)).map
            (componentField nodeC9 FieldLocation.NODE "p.h5" 1 nodeC9.shape
              (componentDimOf nodeC9.shape)))) ∧
     ((2 : Int) = 0 → processField nodeC9 FieldLocation.NODE "p.h5" 1 =
        Except.ok [])) :=
  claim_C9 nodeC9 FieldLocation.NODE "p.h5" 1 2 rfl rfl

/-- A key that occurs among an association list's keys is found. -/
theorem alistFind_isSome_of_mem_keys
    (m : List (Nat × List GridDescription)) (k : Nat)
    (hk : k ∈ m.map Prod.fst) : (alistFind m k).isSome := by
  induction m with
  | nil => simp at hk
  | cons p rest ih =>
    simp only [List.map_cons, List.mem_cons] at hk
    by_cases hpk : p.1 = k
    · simp [alistFind, List.find?, hpk]
    · have hne : (p.1 == k) = false := by
        simp [hpk]
      have hkm : k ∈ rest.map Prod.fst := by
        rcases hk with he | hm
        · exact absurd he.symm hpk
        · exact hm
      have := ih hkm
      simpa [alistFind, List.find?, hne] using this

/-- The positional grid loop leaves the map untouched when every visited
index is already a key. -/
theorem buildTimeLoop_map_eq (nm : String) (idxs : List Nat)
    (m : List (Nat × List GridDescription))
    (hall : ∀ i ∈ idxs, (alistFind m i).isSome) :
    (buildTimeLoop nm idxs m).2 = m := by
  induction idxs with
  | nil => rfl
  | cons i rest ih =>
    have hi := hall i (by simp)
    obtain ⟨v, hv⟩ := Option.isSome_iff_exists.mp hi
    unfold buildTimeLoop
    simp only [alistGetOrInsert, hv]
    exact ih (fun j hj => hall j (by simp [hj]))

/-- Inserting into a sorted list adds one element. -/
theorem insertNat_length (x : Nat) (l : List Nat) :
    (insertNat x l).length = l.length + 1 := by
  induction l with
  | nil => rfl
  | cons y ys ih =>
    unfold insertNat
    split
    · simp
    · simp [ih]

/-- Insertion sort preserves length. -/
theorem sortNat_length (l : List Nat) : (sortNat l).length = l.length := by
  induction l with
  | nil => rfl
  | cons x xs ih =>
    unfold sortNat
    rw [insertNat_length, ih]
    rfl

/-- Mapping a function that fixes every member of a list is the identity. -/
theorem list_map_self {α : Type} (l : List α) (f : α → α)
    (h : ∀ x ∈ l, f x = x) : l.map f = l := by
  induction l with
  | nil => rfl
  | cons x xs ih =>
    simp only [List.map_cons]
    rw [h x (by simp), ih (fun y hy => h y (by simp [hy]))]

/-- One collection is returned unchanged by the builder when its keys are
exactly 0..n-1. -/
theorem buildCollection_snd_eq (c : GridCollectionDescription)
    (hkeys : c.grids.map Prod.fst = List.range c.grids.length) :
    (buildCollection c).2 = c := by
  have hlen : ((sortNat (c.grids.map Prod.fst)).map
      (fun k => (((alistFind c.grids k).getD []).headD
        ({} : GridDescription)).time)).length = c.grids.length := by
    rw [List.length_map, sortNat_length, List.length_map]
  have hmap : (buildTimeLoop c.name (List.range c.grids.length) c.grids).2 =
      c.grids := by
    apply buildTimeLoop_map_eq
    intro i hi
    apply alistFind_isSome_of_mem_keys
    rw [hkeys]
    exact hi
  simp only [buildCollection]
  rw [hlen, hmap]

/-- C3 (amended): Build leaves the Specification unchanged whenever every
collection's time-index keys are exactly the contiguous range 0..n-1 — the
`operator[]` reads of the positional loop then hit only existing entries. -/
theorem claim_C3 :
    ∀ s : Specification,
      (∀ c ∈ s.gridsCollections,
        c.grids.map Prod.fst = List.range c.grids.length) →
      (build s).2 = s := by
  intro s hcont
  show Specification.mk ((s.gridsCollections.map buildCollection).map Prod.snd) = s
  rw [List.map_map]
  have : s.gridsCollections.map (Prod.snd ∘ buildCollection) =
      s.gridsCollections :=
    list_map_self _ _ (fun c hc => buildCollection_snd_eq c (hcont c hc))
  rw [this]

/-- C3 witness: a specification with the contiguous key range 0..0 is
unchanged by Build. -/
theorem claim_C3_witness :
    (∀ c ∈ specC3W.gridsCollections,
      c.grids.map Prod.fst = List.range c.grids.length) ∧
    (build specC3W).2 = specC3W :=
  ⟨by decide, claim_C3 specC3W (by decide)⟩

/-- C3 counterexample: on a specification whose only key is 1, Build mutates
the Specification — the positional loop's `operator[]` read of index 0
inserts a default-constructed empty entry, so the post-call grids map has
keys 0 and 1 where the input had only key 1. -/
theorem claim_C3_counterexample : (build specC3).2 ≠ specC3 := by
  intro h
  have h1 : ((build specC3).2.gridsCollections.headD {}).grids.map Prod.fst =
      [0, 1] := rfl
  rw [h] at h1
  exact absurd h1 (by decide)


/-- Push-back at a key keeps every entry of the map non-empty. -/
theorem alistAppendAt_ne_nil (m : List (Nat × List GridDescription))
    (k : Nat) (g : GridDescription) (hm : ∀ p ∈ m, p.2 ≠ []) :
    ∀ p ∈ alistAppendAt m k g, p.2 ≠ [] := by
  induction m with
  | nil =>
    intro p hp
    simp only [alistAppendAt, List.mem_singleton] at hp
    subst hp
    simp
  | cons a rest ih =>
    obtain ⟨q, v⟩ := a
    intro p hp
    simp only [alistAppendAt] at hp
    split at hp
    · rcases List.mem_cons.mp hp with h1 | h1
      · subst h1
        simp
      · exact hm p (List.mem_cons_of_mem _ h1)
    · split at hp
      · rcases List.mem_cons.mp hp with h1 | h1
        · subst h1
          simp
        · exact hm p h1
      · rcases List.mem_cons.mp hp with h1 | h1
        · subst h1
          exact hm (q, v) (by simp)
        · exact ih (fun r hr => hm r (List.mem_cons_of_mem _ hr)) p h1

/-- A sequence of push-back operations keeps every entry non-empty. -/
theorem appendGridsAt_ne_nil (pairs : List (Nat × GridDescription)) :
    ∀ m : List (Nat × List GridDescription), (∀ p ∈ m, p.2 ≠ []) →
      ∀ p ∈ appendGridsAt m pairs, p.2 ≠ [] := by
  induction pairs with
  | nil => intro m hm; exact hm
  | cons pr rest ih =>
    intro m hm
    unfold appendGridsAt
    simp only [List.foldl_cons]
    exact ih _ (alistAppendAt_ne_nil m pr.1 pr.2 hm)

/-- Modifying the last element preserves a pointwise property that the
modification preserves. -/
theorem modifyLast_pred {α : Type} (P : α → Prop) (f : α → α)
    (hf : ∀ y, P y → P (f y)) :
    ∀ l : List α, (∀ y ∈ l, P y) → ∀ y ∈ modifyLast f l, P y := by
  intro l
  induction l with
  | nil =>
    intro _ y hy
    simp [modifyLast] at hy
  | cons a rest ih =>
    intro hl y hy
    cases rest with
    | nil =>
      simp only [modifyLast, List.mem_singleton] at hy
      subst hy
      exact hf a (hl a (by simp))
    | cons b rest2 =>
      simp only [modifyLast] at hy
      rcases List.mem_cons.mp hy with h1 | h1
      · rw [h1]
        exact hl a (by simp)
      · exact ih (fun z hz => hl z (List.mem_cons_of_mem _ hz)) y h1

/-- The get-or-create-then-modify-back pattern of the consumer stages
preserves the non-empty-entries invariant. -/
theorem specOk_stage (s : Specification)
    (f : GridCollectionDescription → GridCollectionDescription)
    (hf : ∀ c, collOk c → collOk (f c)) (hs : specOk s) :
    specOk ⟨modifyLast f
      (if s.gridsCollections.isEmpty then [{}] else s.gridsCollections)⟩ := by
  intro c hc
  have hbase : ∀ c2 ∈ (if s.gridsCollections.isEmpty then [{}]
      else s.gridsCollections), collOk c2 := by
    split
    · intro c2 hc2
      simp only [List.mem_singleton] at hc2
      subst hc2
      intro p hp
      simp at hp
    · exact hs
  exact modifyLast_pred collOk f hf _ hbase c hc

/-- The mesh stage of the consumer loop preserves the invariant. -/
theorem meshStage_preserves (s : Specification) (n : Nat) (root : HNode)
    (hs : specOk s) (s1 : Specification)
    (hc : meshStage s n root = Except.ok s1) : specOk s1 := by
  unfold meshStage at hc
  cases hfind : findPetscHdfChild root "geometry" with
  | none =>
    simp only [hfind] at hc
    cases hc
    exact hs
  | some geomObj =>
    simp only [hfind] at hc
    cases hmesh : meshGridsMulti root geomObj with
    | error e =>
      simp only [hmesh] at hc
      exact Except.noConfusion hc
    | ok gs =>
      simp only [hmesh] at hc
      cases hc
      apply specOk_stage s _ _ hs
      intro c hcol p hp
      exact appendGridsAt_ne_nil _ c.grids hcol p hp

/-- The particle stage of the consumer loop preserves the invariant. -/
theorem particleStage_preserves (s : Specification) (n : Nat) (root : HNode)
    (hs : specOk s) (s1 : Specification)
    (hc : particleStage s n root = Except.ok s1) : specOk s1 := by
  unfold particleStage at hc
  cases hcont : (root.contains "particles" || root.contains "particle_fields") with
  | false =>
    simp only [hcont] at hc
    cases hc
    exact hs
  | true =>
    simp only [hcont] at hc
    cases hpart : particleGridsMulti root with
    | error e =>
      simp only [hpart] at hc
      exact Except.noConfusion hc
    | ok gs =>
      simp only [hpart] at hc
      cases hc
      apply specOk_stage s _ _ hs
      intro c hcol p hp
      exact appendGridsAt_ne_nil _ c.grids hcol p hp

/-- One consumed root preserves the invariant. -/
theorem consumeRoot_preserves (s : Specification) (n : Nat) (root : HNode)
    (hs : specOk s) (s1 : Specification)
    (hc : consumeRoot s n root = Except.ok s1) : specOk s1 := by
  unfold consumeRoot at hc
  cases hm : meshStage s n root with
  | error e =>
    simp only [hm] at hc
    exact Except.noConfusion hc
  | ok smid =>
    simp only [hm] at hc
    exact particleStage_preserves smid n root
      (meshStage_preserves s n root hs smid hm) s1 hc

/-- The whole consumer loop preserves the invariant. -/
theorem consumeAll_preserves (roots : List HNode) :
    ∀ (s : Specification) (n : Nat) (s1 : Specification), specOk s →
      consumeAll roots s n = Except.ok s1 → specOk s1 := by
  induction roots with
  | nil =>
    intro s n s1 hs hc
    cases hc
    exact hs
  | cons r rs ih =>
    intro s n s1 hs hc
    unfold consumeAll at hc
    cases hr : consumeRoot s n r with
    | error e =>
      simp only [hr] at hc
      exact Except.noConfusion hc
    | ok smid =>
      simp only [hr] at hc
      exact ih smid (n + 1) s1 (consumeRoot_preserves s n r hs smid hr) hc

/-- The mesh part of the single-root overload yields only collections with
non-empty entries. -/
theorem meshPartSingle_collOk (root : HNode)
    (mc : List GridCollectionDescription)
    (hmc : meshPartSingle root = Except.ok mc) : ∀ c ∈ mc, collOk c := by
  unfold meshPartSingle at hmc
  cases hfind : findPetscHdfChild root "geometry" with
  | none =>
    simp only [hfind] at hmc
    cases hmc
    intro c hcmem
    simp at hcmem
  | some geomObj =>
    simp only [hfind] at hmc
    cases hpairs : meshGridPairsSingle root geomObj root.name with
    | error e =>
      simp only [hpairs] at hmc
      exact Except.noConfusion hmc
    | ok pairs =>
      simp only [hpairs] at hmc
      cases hmc
      intro c hcmem
      simp only [List.mem_singleton] at hcmem
      subst hcmem
      intro p hp
      exact appendGridsAt_ne_nil pairs [] (by simp) p hp

/-- C10: every Specification produced by either FromPetscHdf overload maps
each present time-index key to a non-empty list of GridDescriptions — keys
are created only at the moment a GridDescription is pushed under them. -/
theorem claim_C10 :
    (∀ root s, fromPetscHdf root = Except.ok s → specOk s) ∧
    (∀ roots s, fromPetscHdfConsumer roots = Except.ok s → specOk s) := by
  constructor
  · intro root s hc
    unfold fromPetscHdf at hc
    cases hm : meshPartSingle root with
    | error e =>
      simp only [hm] at hc
      exact Except.noConfusion hc
    | ok meshColls =>
      simp only [hm] at hc
      have hmc := meshPartSingle_collOk root meshColls hm
      cases hcont : (root.contains "particles" || root.contains "particle_fields") with
      | false =>
        simp only [hcont] at hc
        cases hc
        exact hmc
      | true =>
        simp only [hcont] at hc
        cases hpart : particleGridPairsSingle root root.name with
        | error e =>
          simp only [hpart] at hc
          exact Except.noConfusion hc
        | ok pairs =>
          simp only [hpart] at hc
          cases hc
          intro c hcmem
          simp only [List.mem_append, List.mem_singleton] at hcmem
          rcases hcmem with h1 | h1
          · exact hmc c h1
          · subst h1
            intro p hp
            exact appendGridsAt_ne_nil pairs [] (by simp) p hp
  · intro roots s hc
    unfold fromPetscHdfConsumer at hc
    apply consumeAll_preserves roots ⟨[]⟩ 0 s _ hc
    intro c hcmem
    simp at hcmem

/-- C10 witness: the invariant holds on the specification extracted from the
particle-only root. -/
theorem claim_C10_witness :
    specOk ((fromPetscHdf rootC10).toOption.getD ⟨[]⟩) :=
  claim_C10.1 rootC10 ((fromPetscHdf rootC10).toOption.getD ⟨[]⟩) rfl
